import Mathlib

/-!
# BLAPL Loyalty App — shallow embedding of the check-in/coupon ledger engine

This file embeds the ledger core of the BLAPL loyalty application (App.js:
`performCheckIn`, `deleteCheckIn`, `redeemCoupon`, `commitAudit`, the
`simulateScan` handler of the scan view, and firebase.js: `fbRedeemCoupon`)
and proves the specified properties about it.

Modelling conventions:
* JS timestamps (`Date.now()` values) are `Nat` milliseconds.
* JS `null` for a coupon's `redeemedAt` is `Option.none`; a user's
  `lastCheckInAt` is stored as `0` when absent, exactly as the code seeds it
  (`lastCheckInAt: 0`) and as `deleteCheckIn` resets it, so the JS truthiness
  test `if (u.lastCheckInAt)` becomes `≠ 0`.
* Opaque generated ids (`genId`) are `Nat` parameters supplied by the caller.
* The process-wide refs `lastActionRef`, `lastScanValRef`, `lastScanTsRef`
  are an explicit `GlobalScanState` record threaded through `performCheckIn`.
* A thrown `Error` is an explicit error value; on a failed operation the
  user record is returned unchanged, which is what the aborted state update
  leaves in place.
* Audit emission (`commitAudit` calls made by an operation) is returned as a
  list of events in emission order.
-/

namespace BLAPL

/-- The fixed QR payload constant (`QR_CONSTANT` in App.js). -/
def QR_CONSTANT : String := "bla-poker-checkin"

/-- `CHECKIN_INTERVAL_HOURS` in App.js: 156 hours (6d12h). -/
def CHECKIN_INTERVAL_HOURS : Nat := 156

/-- `CHECKIN_INTERVAL_MS` in App.js: 156 h in milliseconds = 561 600 000. -/
def CHECKIN_INTERVAL_MS : Nat := CHECKIN_INTERVAL_HOURS * 3600 * 1000

/-- `COUPON_MODULO` in App.js: a coupon every 5 check-ins. -/
def COUPON_MODULO : Nat := 5

/-- A check-in record `{ id, ts }`. -/
structure CheckIn where
  id : Nat
  ts : Nat
deriving DecidableEq

/-- A coupon record `{ id, createdAt, redeemedAt }`; `redeemedAt = none`
models the JS `null` (not yet redeemed). -/
structure Coupon where
  id : Nat
  createdAt : Nat
  redeemedAt : Option Nat
deriving DecidableEq

/-- The ledger fields of a user record (identity fields such as email play
no role in the ledger operations and are omitted). -/
structure User where
  lastCheckInAt : Nat
  totalCheckIns : Nat
  couponsAvailable : Nat
  couponHistory : List Coupon
  checkIns : List CheckIn
deriving DecidableEq

/-- A freshly created user: all ledger fields zeroed, exactly as in
`createSeedUsers` / `addUser`. -/
def freshUser : User :=
  { lastCheckInAt := 0, totalCheckIns := 0, couponsAvailable := 0
    couponHistory := [], checkIns := [] }

/-- The audit events the ledger operations emit, with the metadata each one
carries (`commitAudit(type, meta, actor)` calls in App.js). -/
inductive AuditEvent
  | checkinAdd (checkInId : Nat)
  | couponCreate (couponId : Nat)
  | couponRedeem (couponId : Nat)
  | couponInvalidate (couponIds : List Nat)
  | clockAnomaly (last : Nat) (nowTs : Nat)
  | checkinDelete (checkInId : Nat)
deriving DecidableEq

/-- A stored audit-log record (`{ id, type, meta, ts, actorUserId }`). -/
structure AuditLogEntry where
  id : Nat
  event : AuditEvent
  ts : Nat
  actorUserId : Option Nat
deriving DecidableEq

/-- `commitAudit` in App.js: prepend the new entry and keep at most the 499
previously newest entries — `[entry, ...l.slice(0, 499)]`. -/
def commitAudit (entry : AuditLogEntry) (l : List AuditLogEntry) :
    List AuditLogEntry :=
  entry :: l.take 499

/-- `Array.prototype.findIndex`, with `none` for JS `-1`. -/
def findIndex (p : α → Bool) : List α → Option Nat
  | [] => none
  | a :: as => if p a then some 0 else (findIndex p as).map (· + 1)

/-- `redeemCoupon` in App.js. Returns the (possibly unchanged) user record
and the audit events emitted. When `couponsAvailable` is zero or no coupon
is unredeemed the updater returns the user unchanged — a silent no-op, no
error is thrown. -/
def redeemCoupon (u : User) (t : Nat) : User × List AuditEvent :=
  if u.couponsAvailable = 0 then (u, [])
  else
    match findIndex (fun c => c.redeemedAt.isNone) u.couponHistory with
    | none => (u, [])
    | some couponIdx =>
      let old := u.couponHistory.getD couponIdx ⟨0, 0, none⟩
      let redeemed : Coupon := { old with redeemedAt := some t }
      ({ u with couponsAvailable := u.couponsAvailable - 1,
                couponHistory := u.couponHistory.set couponIdx redeemed },
       [AuditEvent.couponRedeem redeemed.id])

/-- The process-wide mutable refs of the check-in handler:
`lastActionRef`, `lastScanValRef`, `lastScanTsRef`. -/
structure GlobalScanState where
  lastAction : Nat
  lastScanVal : String
  lastScanTs : Nat
deriving DecidableEq

/-- Initial ref values (`useRef(0)`, `useRef('')`, `useRef(0)`). -/
def initialScanState : GlobalScanState :=
  { lastAction := 0, lastScanVal := "", lastScanTs := 0 }

/-- The errors `performCheckIn` throws. -/
inductive CheckInError
  | busy | duplicate | timeAnomaly | tooSoon
deriving DecidableEq

/-- Result of one `performCheckIn` call: the refs after the call, the audit
events emitted, the user record after the call (unchanged on failure), and
the thrown error if any. -/
structure CheckInResult where
  g : GlobalScanState
  audits : List AuditEvent
  user : User
  err : Option CheckInError
deriving DecidableEq

/-- `performCheckIn` in App.js, for the targeted user record.
`startTs` is the `now()` sampled at entry; `checkInId` and `couponId` are
the `genId` values for the records created on success. The refs are updated
only after the BUSY and DUPLICATE guards pass, so a TIME_ANOMALY or
TOO_SOON failure still commits the new ref values. -/
def performCheckIn (g : GlobalScanState) (u : User) (scanValue : String)
    (startTs checkInId couponId : Nat) : CheckInResult :=
  if startTs - g.lastAction < 1200 then
    { g := g, audits := [], user := u, err := some .busy }
  else if scanValue ≠ "" ∧ scanValue = g.lastScanVal ∧
      startTs - g.lastScanTs < 2500 then
    { g := g, audits := [], user := u, err := some .duplicate }
  else
    let g' : GlobalScanState :=
      { lastAction := startTs, lastScanVal := scanValue, lastScanTs := startTs }
    if u.lastCheckInAt ≠ 0 ∧ startTs < u.lastCheckInAt then
      { g := g', audits := [AuditEvent.clockAnomaly u.lastCheckInAt startTs],
        user := u, err := some .timeAnomaly }
    else if u.lastCheckInAt ≠ 0 ∧ startTs - u.lastCheckInAt < CHECKIN_INTERVAL_MS then
      { g := g', audits := [], user := u, err := some .tooSoon }
    else
      let newCheckIn : CheckIn := { id := checkInId, ts := startTs }
      let newCheckIns := u.checkIns ++ [newCheckIn]
      let totalCheckIns := u.totalCheckIns + 1
      if totalCheckIns % COUPON_MODULO = 0 then
        let coupon : Coupon := { id := couponId, createdAt := startTs, redeemedAt := none }
        { g := g',
          audits := [AuditEvent.couponCreate coupon.id,
                     AuditEvent.checkinAdd newCheckIn.id],
          user := { u with checkIns := newCheckIns, totalCheckIns := totalCheckIns,
                           couponsAvailable := u.couponsAvailable + 1,
                           couponHistory := u.couponHistory ++ [coupon],
                           lastCheckInAt := newCheckIn.ts },
          err := none }
      else
        { g := g',
          audits := [AuditEvent.checkinAdd newCheckIn.id],
          user := { u with checkIns := newCheckIns, totalCheckIns := totalCheckIns,
                           lastCheckInAt := newCheckIn.ts },
          err := none }

/-- The errors surfaced by the scan handler (`simulateScan`): the invalid-code
path plus the errors `performCheckIn` throws. -/
inductive ScanError
  | invalidToken | busy | duplicate | timeAnomaly | tooSoon
deriving DecidableEq

/-- Map a `performCheckIn` error to the scan-level error. -/
def CheckInError.toScanError : CheckInError → ScanError
  | .busy => .busy
  | .duplicate => .duplicate
  | .timeAnomaly => .timeAnomaly
  | .tooSoon => .tooSoon

/-- Result of one `simulateScan` call. -/
structure ScanResult where
  g : GlobalScanState
  audits : List AuditEvent
  user : User
  err : Option ScanError
deriving DecidableEq

/-- `simulateScan` in App.js (ScanView): the token is compared against
`QR_CONSTANT` first, and only on a match is `performCheckIn` invoked. -/
def simulateScan (g : GlobalScanState) (u : User) (value : String)
    (startTs checkInId couponId : Nat) : ScanResult :=
  if value ≠ QR_CONSTANT then
    { g := g, audits := [], user := u, err := some .invalidToken }
  else
    let r := performCheckIn g u value startTs checkInId couponId
    { g := r.g, audits := r.audits, user := r.user,
      err := r.err.map CheckInError.toScanError }

/-- Last element of a list of timestamps, `0` when empty. -/
def lastD (l : List Nat) : Nat := l.getLastD 0

/-- `newCheckIns.length ? newCheckIns[newCheckIns.length-1].ts : 0` — the
timestamp of the last remaining check-in, or 0 when none remain. -/
def lastTs (l : List CheckIn) : Nat :=
  lastD (l.map CheckIn.ts)

/-- `deleteCheckIn` in App.js, for the targeted user record. `padId i` and
`padTs` are the `genId('cp')` / `now()` values used for the `i`-th coupon
synthesized when padding (only reachable when the target count exceeds the
existing history). Returns the (possibly unchanged) user record and the
audit events emitted; an unknown `checkInId` is a silent no-op. -/
def deleteCheckIn (u : User) (checkInId : Nat) (padId : Nat → Nat)
    (padTs : Nat) : User × List AuditEvent :=
  match findIndex (fun c => c.id = checkInId) u.checkIns with
  | none => (u, [])
  | some _ =>
    let newCheckIns := u.checkIns.filter (fun c => c.id ≠ checkInId)
    let total := newCheckIns.length
    let targetCouponCount := total / COUPON_MODULO
    let existingSorted :=
      u.couponHistory.insertionSort (fun a b => a.createdAt ≤ b.createdAt)
    let rebuilt := (List.range targetCouponCount).map
      (fun i => existingSorted.getD i ⟨padId i, padTs, none⟩)
    let removed :=
      if targetCouponCount < existingSorted.length then
        existingSorted.drop targetCouponCount
      else []
    let redeemedRemoved := removed.filter (fun c => c.redeemedAt.isSome)
    let invalidateAudits :=
      if redeemedRemoved.length ≠ 0 then
        [AuditEvent.couponInvalidate (redeemedRemoved.map (fun c => c.id))]
      else []
    let couponsAvailable := (rebuilt.filter (fun c => c.redeemedAt.isNone)).length
    ({ u with checkIns := newCheckIns, totalCheckIns := total,
              couponsAvailable := couponsAvailable, couponHistory := rebuilt,
              lastCheckInAt := lastTs newCheckIns },
     invalidateAudits ++ [AuditEvent.checkinDelete checkInId])

/-- `fbRedeemCoupon` in firebase.js: operating on the coupon sub-collection
(delivered sorted by `createdAt` ascending) and the user's
`couponsAvailable` counter. Fails with `NO_COUPON` when no coupon is
unredeemed or the counter is below 1; otherwise stamps the first unredeemed
coupon and decrements the counter. -/
def fbRedeemCoupon (sortedCoupons : List Coupon) (couponsAvailable : Nat)
    (t : Nat) : Except String (List Coupon × Nat) :=
  match findIndex (fun c => c.redeemedAt.isNone) sortedCoupons with
  | none => .error "NO_COUPON"
  | some i =>
    if couponsAvailable < 1 then .error "NO_COUPON"
    else
      let old := sortedCoupons.getD i ⟨0, 0, none⟩
      .ok (sortedCoupons.set i { old with redeemedAt := some t },
           couponsAvailable - 1)

/-- Invariant I1: `totalCheckIns` equals the length of `checkIns`. -/
def I1 (u : User) : Prop := u.totalCheckIns = u.checkIns.length

/-- Invariant I2: `couponHistory` has `floor(totalCheckIns / 5)` coupons. -/
def I2 (u : User) : Prop := u.couponHistory.length = u.totalCheckIns / COUPON_MODULO

/-- Invariant I3: `couponsAvailable` counts the unredeemed coupons. -/
def I3 (u : User) : Prop :=
  u.couponsAvailable = (u.couponHistory.filter (fun c => c.redeemedAt.isNone)).length

/-- The maximum check-in timestamp of a user, `0` when there are none. -/
def maxCheckInTs (u : User) : Nat := (u.checkIns.map CheckIn.ts).foldr max 0

/-- Invariant I4: `lastCheckInAt` is the maximum timestamp in `checkIns`,
or `0` (absent) when `checkIns` is empty. -/
def I4 (u : User) : Prop := u.lastCheckInAt = maxCheckInTs u

/-- The four ledger invariants of §3 together. -/
def LedgerInv (u : User) : Prop := I1 u ∧ I2 u ∧ I3 u ∧ I4 u

/-- The check-in timestamps of a user, in sequence order. -/
def checkInTimes (u : User) : List Nat := u.checkIns.map CheckIn.ts

/-- Strengthened induction invariant: I1–I3 plus the check-in sequence is
nondecreasing in time and `lastCheckInAt` is the last entry's timestamp
(`0` when empty) — which together imply I4. -/
def StrongInv (u : User) : Prop :=
  I1 u ∧ I2 u ∧ I3 u ∧ (checkInTimes u).Pairwise (· ≤ ·) ∧
    u.lastCheckInAt = lastD (checkInTimes u)

/-- The user records reachable from a fresh user by any sequence of
`performCheckIn` (successful), `deleteCheckIn` and `redeemCoupon` calls,
with arbitrary scan-handler ref states, tokens, timestamps and generated
ids at each step. -/
inductive Reachable : User → Prop
  | fresh : Reachable freshUser
  | checkIn (u : User) (g : GlobalScanState) (scanValue : String)
      (startTs checkInId couponId : Nat) (hu : Reachable u)
      (hok : (performCheckIn g u scanValue startTs checkInId couponId).err = none) :
      Reachable (performCheckIn g u scanValue startTs checkInId couponId).user
  | delete (u : User) (checkInId : Nat) (padId : Nat → Nat) (padTs : Nat)
      (hu : Reachable u) :
      Reachable (deleteCheckIn u checkInId padId padTs).1
  | redeem (u : User) (t : Nat) (hu : Reachable u) :
      Reachable (redeemCoupon u t).1

/-- The user records reachable from a fresh user by `n` successful
check-ins and `r` successful redemptions, in any interleaving and with no
deletions (a failed redemption leaves the record unchanged, so only
successful ones — those that emit `coupon.redeem` — are counted). -/
inductive ReachableCR : Nat → Nat → User → Prop
  | fresh : ReachableCR 0 0 freshUser
  | checkIn (n r : Nat) (u : User) (g : GlobalScanState) (scanValue : String)
      (startTs checkInId couponId : Nat) (hu : ReachableCR n r u)
      (hok : (performCheckIn g u scanValue startTs checkInId couponId).err = none) :
      ReachableCR (n + 1) r (performCheckIn g u scanValue startTs checkInId couponId).user
  | redeem (n r : Nat) (u : User) (t : Nat) (hu : ReachableCR n r u)
      (hr : (redeemCoupon u t).2 ≠ []) :
      ReachableCR n (r + 1) (redeemCoupon u t).1

/-- The `targetCouponCount` computed by `deleteCheckIn u cid`: the number
of remaining check-ins divided by 5. -/
abbrev targetAfterDelete (u : User) (cid : Nat) : Nat :=
  (u.checkIns.filter (fun c => c.id ≠ cid)).length / COUPON_MODULO

/-- The coupons `deleteCheckIn u cid` drops that had been redeemed (for a
creation-time-sorted history): those beyond position `targetCouponCount`
with a set `redeemedAt`. -/
abbrev droppedRedeemed (u : User) (cid : Nat) : List Coupon :=
  (u.couponHistory.drop (targetAfterDelete u cid)).filter
    (fun c => c.redeemedAt.isSome)

/-- One scan-driven check-in step: thread the handler refs and the user
record through `performCheckIn` with the valid token. -/
def scanStep (s : GlobalScanState × User) (ts cid cpid : Nat) :
    GlobalScanState × User :=
  let r := performCheckIn s.1 s.2 QR_CONSTANT ts cid cpid
  (r.g, r.user)

/-- Five well-spaced check-ins with the valid token, starting from a fresh
user (each step `CHECKIN_INTERVAL_MS` after the previous one). -/
def cadenceRun : GlobalScanState × User :=
  scanStep (scanStep (scanStep (scanStep (scanStep
    (initialScanState, freshUser)
    2000 1 101) 561602000 2 102) 1123202000 3 103) 1684802000 4 104)
    2246402000 5 105

/-! ### Helper lemmas: `findIndex` -/

theorem findIndex_eq_none {p : α → Bool} :
    ∀ {l : List α}, findIndex p l = none → ∀ x ∈ l, p x = false := by
  intro l
  induction l with
  | nil => intro _ x hx; cases hx
  | cons a t ih =>
    intro h x hx
    by_cases hp : p a
    · simp [findIndex, hp] at h
    · rcases List.mem_cons.mp hx with rfl | hxt
      · simpa using hp
      · simp [findIndex, hp] at h
        exact ih h x hxt

theorem findIndex_lt_length {p : α → Bool} :
    ∀ {l : List α} {i : Nat}, findIndex p l = some i → i < l.length := by
  intro l
  induction l with
  | nil => intro i h; cases h
  | cons a t ih =>
    intro i h
    by_cases hp : p a
    · simp [findIndex, hp] at h
      subst h
      simp
    · simp [findIndex, hp] at h
      obtain ⟨j, hj, rfl⟩ := h
      have := ih hj
      simpa [Nat.succ_lt_succ_iff] using this

theorem findIndex_isSome_of_mem {p : α → Bool} {x : α} :
    ∀ {l : List α}, x ∈ l → p x = true → (findIndex p l).isSome := by
  intro l
  induction l with
  | nil => intro hx; cases hx
  | cons a t ih =>
    intro hx hp
    by_cases hpa : p a
    · simp [findIndex, hpa]
    · rcases List.mem_cons.mp hx with rfl | hxt
      · exact absurd hp (by simpa using hpa)
      · simp only [findIndex, if_neg hpa]
        have := ih hxt hp
        rcases Option.isSome_iff_exists.mp this with ⟨j, hj⟩
        simp [hj]

theorem filter_length_set {p : α → Bool} {x : α} (hx : p x = false) :
    ∀ {l : List α} {i : Nat}, findIndex p l = some i →
      ((l.set i x).filter p).length + 1 = (l.filter p).length := by
  intro l
  induction l with
  | nil => intro i h; cases h
  | cons a t ih =>
    intro i h
    by_cases hpa : p a
    · simp [findIndex, hpa] at h
      subst h
      simp [List.filter_cons, hpa, hx]
    · simp [findIndex, hpa] at h
      obtain ⟨j, hj, rfl⟩ := h
      simp [List.filter_cons, hpa]
      exact ih hj

/-! ### Helper lemmas: maxima and last elements -/

theorem le_foldr_max {l : List Nat} {x : Nat} (hx : x ∈ l) :
    x ≤ l.foldr max 0 := by
  induction l with
  | nil => cases hx
  | cons a t ih =>
    rcases List.mem_cons.mp hx with rfl | hxt
    · exact le_max_left _ _
    · exact le_trans (ih hxt) (le_max_right _ _)

theorem lastD_cons_cons (a b : Nat) (t : List Nat) :
    lastD (a :: b :: t) = lastD (b :: t) := by
  simp [lastD, List.getLastD_cons]

theorem foldr_max_eq_lastD :
    ∀ {l : List Nat}, l.Pairwise (· ≤ ·) → l.foldr max 0 = lastD l := by
  intro l
  induction l with
  | nil => intro _; rfl
  | cons a t ih =>
    intro h
    have h' := List.pairwise_cons.mp h
    cases t with
    | nil => simp [lastD, List.getLastD]
    | cons b t' =>
      have ht : (b :: t').foldr max 0 = lastD (b :: t') := ih h'.2
      have hb : b ≤ lastD (b :: t') := ht ▸ le_foldr_max (by simp)
      rw [List.foldr_cons, ht, lastD_cons_cons]
      exact max_eq_right (le_trans (h'.1 b (by simp)) hb)

theorem le_lastD_of_pairwise {l : List Nat} (h : l.Pairwise (· ≤ ·))
    {x : Nat} (hx : x ∈ l) : x ≤ lastD l :=
  (foldr_max_eq_lastD h) ▸ le_foldr_max hx



/-- What a successful `performCheckIn` does to the user record, and the
interval fact the guards guarantee. -/
theorem performCheckIn_ok (g : GlobalScanState) (u : User) (sv : String)
    (ts cid cpid : Nat)
    (h : (performCheckIn g u sv ts cid cpid).err = none) :
    (u.lastCheckInAt = 0 ∨ u.lastCheckInAt ≤ ts) ∧
    (performCheckIn g u sv ts cid cpid).user =
      (if (u.totalCheckIns + 1) % COUPON_MODULO = 0 then
        { u with checkIns := u.checkIns ++ [⟨cid, ts⟩],
                 totalCheckIns := u.totalCheckIns + 1,
                 couponsAvailable := u.couponsAvailable + 1,
                 couponHistory := u.couponHistory ++ [⟨cpid, ts, none⟩],
                 lastCheckInAt := ts }
      else
        { u with checkIns := u.checkIns ++ [⟨cid, ts⟩],
                 totalCheckIns := u.totalCheckIns + 1,
                 lastCheckInAt := ts }) := by
  simp only [performCheckIn] at h ⊢
  split_ifs at h ⊢ with h1 h2 h3 h4 h5
  · refine ⟨?_, rfl⟩
    rcases Decidable.em (u.lastCheckInAt = 0) with h0 | h0
    · exact Or.inl h0
    · right
      rcases Decidable.em (ts < u.lastCheckInAt) with hlt | hlt
      · exact absurd ⟨h0, hlt⟩ h3
      · omega
  · refine ⟨?_, rfl⟩
    rcases Decidable.em (u.lastCheckInAt = 0) with h0 | h0
    · exact Or.inl h0
    · right
      rcases Decidable.em (ts < u.lastCheckInAt) with hlt | hlt
      · exact absurd ⟨h0, hlt⟩ h3
      · omega


theorem strongInv_freshUser : StrongInv freshUser := by
  refine ⟨rfl, rfl, rfl, ?_, rfl⟩
  simp [checkInTimes, freshUser]

theorem strongInv_performCheckIn (g : GlobalScanState) (u : User)
    (sv : String) (ts cid cpid : Nat) (hu : StrongInv u)
    (h : (performCheckIn g u sv ts cid cpid).err = none) :
    StrongInv (performCheckIn g u sv ts cid cpid).user := by
  obtain ⟨hi1, hi2, hi3, hsort, hlast⟩ := hu
  obtain ⟨hle, huser⟩ := performCheckIn_ok g u sv ts cid cpid h
  rw [huser]
  have hall : ∀ x ∈ checkInTimes u, x ≤ ts := by
    intro x hx
    have hx' : x ≤ lastD (checkInTimes u) := le_lastD_of_pairwise hsort hx
    rcases hle with h0 | h0 <;> omega
  have hpair : ((u.checkIns ++ [({ id := cid, ts := ts } : CheckIn)]).map CheckIn.ts).Pairwise (· ≤ ·) := by
    rw [List.map_append]
    refine List.pairwise_append.mpr ⟨hsort, by simp, ?_⟩
    intro a ha b hb
    simp at hb
    subst hb
    exact hall a ha
  have hlastnew : lastD ((u.checkIns ++ [({ id := cid, ts := ts } : CheckIn)]).map CheckIn.ts) = ts := by
    rw [List.map_append]
    simp [lastD]
  split_ifs with hmod
  · refine ⟨?_, ?_, ?_, ?_, ?_⟩
    · simp only [I1] at hi1 ⊢
      simp
      omega
    · simp only [I2, COUPON_MODULO] at hi2 ⊢
      simp only [COUPON_MODULO] at hmod
      simp [List.length_append, hi2]
      omega
    · simp only [I3] at hi3 ⊢
      simp [List.filter_append, hi3]
    · exact hpair
    · simpa [checkInTimes] using hlastnew.symm
  · refine ⟨?_, ?_, ?_, ?_, ?_⟩
    · simp only [I1] at hi1 ⊢
      simp
      omega
    · simp only [I2, COUPON_MODULO] at hi2 ⊢
      simp only [COUPON_MODULO] at hmod
      simp [hi2]
      omega
    · simpa [I3] using hi3
    · exact hpair
    · simpa [checkInTimes] using hlastnew.symm

theorem strongInv_deleteCheckIn (u : User) (cid : Nat) (padId : Nat → Nat)
    (padTs : Nat) (hu : StrongInv u) :
    StrongInv (deleteCheckIn u cid padId padTs).1 := by
  obtain ⟨hi1, hi2, hi3, hsort, hlast⟩ := hu
  unfold deleteCheckIn
  cases hfi : findIndex (fun c => c.id = cid) u.checkIns with
  | none => exact ⟨hi1, hi2, hi3, hsort, hlast⟩
  | some i =>
    refine ⟨?_, ?_, ?_, ?_, ?_⟩
    · simp [I1]
    · simp [I2]
    · simp [I3]
    · have hsub : ((u.checkIns.filter (fun c => c.id ≠ cid)).map CheckIn.ts).Sublist
          (u.checkIns.map CheckIn.ts) :=
        (List.filter_sublist _).map _
      exact List.Pairwise.sublist hsub hsort
    · rfl

theorem strongInv_redeemCoupon (u : User) (t : Nat) (hu : StrongInv u) :
    StrongInv (redeemCoupon u t).1 := by
  obtain ⟨hi1, hi2, hi3, hsort, hlast⟩ := hu
  unfold redeemCoupon
  split_ifs with hav
  · exact ⟨hi1, hi2, hi3, hsort, hlast⟩
  · cases hfi : findIndex (fun c => c.redeemedAt.isNone) u.couponHistory with
    | none => exact ⟨hi1, hi2, hi3, hsort, hlast⟩
    | some i =>
      refine ⟨hi1, ?_, ?_, hsort, hlast⟩
      · simp [I2, List.length_set]
        exact hi2
      · have hdec := filter_length_set
          (p := fun c => c.redeemedAt.isNone)
          (x := ({ id := (u.couponHistory.getD i ⟨0, 0, none⟩).id,
                   createdAt := (u.couponHistory.getD i ⟨0, 0, none⟩).createdAt,
                   redeemedAt := some t } : Coupon))
          (by simp) hfi
        simp only [I3] at hi3 ⊢
        omega

theorem reachable_strongInv : ∀ u : User, Reachable u → StrongInv u := by
  intro u h
  induction h with
  | fresh => exact strongInv_freshUser
  | checkIn u g sv ts cid cpid hu hok ih => exact strongInv_performCheckIn g u sv ts cid cpid ih hok
  | delete u cid padId padTs hu ih => exact strongInv_deleteCheckIn u cid padId padTs ih
  | redeem u t hu ih => exact strongInv_redeemCoupon u t ih

theorem strongInv_ledgerInv {u : User} (h : StrongInv u) : LedgerInv u := by
  obtain ⟨h1, h2, h3, hs, hl⟩ := h
  refine ⟨h1, h2, h3, ?_⟩
  show u.lastCheckInAt = maxCheckInTs u
  rw [hl, maxCheckInTs]
  exact (foldr_max_eq_lastD hs).symm

/-- C1: starting from a freshly created user (all ledger fields zeroed),
after every successful operation in any sequence of `performCheckIn`,
`deleteCheckIn` and `redeemCoupon` calls, the user record satisfies
I1 (`totalCheckIns = length checkIns`), I2 (`length couponHistory =
floor(totalCheckIns / 5)`), I3 (`couponsAvailable` = number of unredeemed
coupons in `couponHistory`) and I4 (`lastCheckInAt` = maximum check-in
timestamp, or 0/absent when `checkIns` is empty). -/
theorem C1_ledger_invariants (u : User) (h : Reachable u) :
    I1 u ∧ I2 u ∧ I3 u ∧ I4 u :=
  strongInv_ledgerInv (reachable_strongInv u h)

/-- Witness for C1: the invariants hold for the concrete user produced by a
successful first check-in at time 2000. -/
theorem C1_ledger_invariants_witness :
    I1 (performCheckIn initialScanState freshUser QR_CONSTANT 2000 1 101).user ∧
    I2 (performCheckIn initialScanState freshUser QR_CONSTANT 2000 1 101).user ∧
    I3 (performCheckIn initialScanState freshUser QR_CONSTANT 2000 1 101).user ∧
    I4 (performCheckIn initialScanState freshUser QR_CONSTANT 2000 1 101).user :=
  C1_ledger_invariants _
    (Reachable.checkIn freshUser initialScanState QR_CONSTANT 2000 1 101
      Reachable.fresh (by decide))

theorem findIndex_eq_none_of_forall {p : α → Bool} :
    ∀ {l : List α}, (∀ x ∈ l, p x = false) → findIndex p l = none := by
  intro l
  induction l with
  | nil => intro _; rfl
  | cons a t ih =>
    intro h
    have hpa : p a = false := h a (by simp)
    simp [findIndex, hpa]
    exact ih (fun x hx => h x (by simp [hx]))

/-- C9: the audit log is bounded: `commitAudit` always leaves at most 500
entries, the retained log is exactly the 500 most-recent entries (newest
first), and every retained previous entry is kept unchanged at its shifted
position — so when the bound is exceeded it is the oldest entries that are
evicted. -/
theorem C9_audit_log_bounded (e : AuditLogEntry) (l : List AuditLogEntry) :
    (commitAudit e l).length ≤ 500 ∧
    commitAudit e l = (e :: l).take 500 ∧
    (∀ i, i < 499 → (commitAudit e l)[i + 1]? = l[i]?) := by
  refine ⟨?_, ?_, ?_⟩
  · simp only [commitAudit, List.length_cons]
    have := List.length_take 499 l
    omega
  · rfl
  · intro i hi
    simp [commitAudit, List.getElem?_take, hi]

/-- Witness for C9: concrete two-entry log. -/
theorem C9_audit_log_bounded_witness :
    (commitAudit ⟨3, .checkinAdd 3, 30, none⟩
      [⟨2, .checkinAdd 2, 20, none⟩, ⟨1, .checkinAdd 1, 10, none⟩]).length ≤ 500 ∧
    (commitAudit ⟨3, .checkinAdd 3, 30, none⟩
      [⟨2, .checkinAdd 2, 20, none⟩, ⟨1, .checkinAdd 1, 10, none⟩])[1]? =
      some ⟨2, .checkinAdd 2, 20, none⟩ :=
  ⟨(C9_audit_log_bounded ⟨3, .checkinAdd 3, 30, none⟩
      [⟨2, .checkinAdd 2, 20, none⟩, ⟨1, .checkinAdd 1, 10, none⟩]).1,
   by
    have := (C9_audit_log_bounded ⟨3, .checkinAdd 3, 30, none⟩
      [⟨2, .checkinAdd 2, 20, none⟩, ⟨1, .checkinAdd 1, 10, none⟩]).2.2 0
      (by decide)
    simpa using this⟩

/-- C7 counterexample: deleting a check-in id that does not occur in the
user's `checkIns` does NOT fail: `deleteCheckIn` returns the record
unchanged with no audit emission and no error of any kind (the function
has no failure outcome), contrary to the claim that it reports a
not-found error. Here the user has one check-in with id 1 and we delete
id 99. -/
theorem C7_counterexample :
    deleteCheckIn
      ({ lastCheckInAt := 2000, totalCheckIns := 1, couponsAvailable := 0,
         couponHistory := [], checkIns := [{ id := 1, ts := 2000 }] } : User)
      99 (fun i => i) 0 =
    (({ lastCheckInAt := 2000, totalCheckIns := 1, couponsAvailable := 0,
        couponHistory := [], checkIns := [{ id := 1, ts := 2000 }] } : User),
     []) := by decide

/-- C7 amended: for every user and every `checkInId` that does not occur in
the user's `checkIns`, `deleteCheckIn` leaves the record unchanged and
emits no audit entries, but does not report an error — it is a silent
no-op. -/
theorem C7_deleteCheckIn_missing_noop (u : User) (cid : Nat)
    (padId : Nat → Nat) (padTs : Nat)
    (h : ∀ c ∈ u.checkIns, c.id ≠ cid) :
    deleteCheckIn u cid padId padTs = (u, []) := by
  have hnone : findIndex (fun c => c.id = cid) u.checkIns = none :=
    findIndex_eq_none_of_forall (fun x hx => by simpa using h x hx)
  unfold deleteCheckIn
  rw [hnone]

/-- Witness for C7 amended: concrete one-check-in user, missing id 99. -/
theorem C7_deleteCheckIn_missing_noop_witness :
    deleteCheckIn
      ({ lastCheckInAt := 2000, totalCheckIns := 1, couponsAvailable := 0,
         couponHistory := [], checkIns := [{ id := 1, ts := 2000 }] } : User)
      99 (fun i => i + 7) 3 =
    (({ lastCheckInAt := 2000, totalCheckIns := 1, couponsAvailable := 0,
        couponHistory := [], checkIns := [{ id := 1, ts := 2000 }] } : User),
     []) :=
  C7_deleteCheckIn_missing_noop _ 99 (fun i => i + 7) 3 (by decide)

/-- C5 counterexample: with the global rate-limit window open
(`lastAction = 5000`, attempt at 5100, i.e. 100 ms later), a wrong token
fails with `InvalidToken` — not `Busy` as the claim states — because the
scan handler validates the token before ever calling `performCheckIn`;
the same attempt with the valid token does fail `Busy`. -/
theorem C5_counterexample :
    (simulateScan ⟨5000, "", 0⟩ freshUser "wrong-token" 5100 1 101).err =
      some .invalidToken ∧
    some ScanError.invalidToken ≠ some ScanError.busy ∧
    (simulateScan ⟨5000, "", 0⟩ freshUser QR_CONSTANT 5100 1 101).err =
      some .busy := by
  refine ⟨by decide, by decide, by decide⟩

/-- C5 amended: the token-validity guard is evaluated first, in the scan
handler, before `performCheckIn` is invoked: an invalid token fails with
`InvalidToken` without consulting or updating the rate-limit state. The
remaining guards are evaluated in the order rate-limit (`Busy`),
duplicate-scan (`Duplicate`), clock-anomaly (`TimeAnomaly`, with the
`clock.anomaly` audit), interval (`TooSoon`, 156 h = 561 600 000 ms), and
an attempt failing an earlier guard never reports a later guard's error.
In particular, an invalid token presented while the rate-limit window is
open fails `InvalidToken`, not `Busy`. -/
theorem C5_guard_order (g : GlobalScanState) (u : User) (value : String)
    (startTs cid cpid : Nat) :
    (value ≠ QR_CONSTANT →
      simulateScan g u value startTs cid cpid =
        ⟨g, [], u, some .invalidToken⟩) ∧
    (value = QR_CONSTANT → startTs - g.lastAction < 1200 →
      simulateScan g u value startTs cid cpid = ⟨g, [], u, some .busy⟩) ∧
    (value = QR_CONSTANT → ¬ startTs - g.lastAction < 1200 →
      value = g.lastScanVal → startTs - g.lastScanTs < 2500 →
      simulateScan g u value startTs cid cpid =
        ⟨g, [], u, some .duplicate⟩) ∧
    (value = QR_CONSTANT → ¬ startTs - g.lastAction < 1200 →
      ¬ (value = g.lastScanVal ∧ startTs - g.lastScanTs < 2500) →
      u.lastCheckInAt ≠ 0 → startTs < u.lastCheckInAt →
      simulateScan g u value startTs cid cpid =
        ⟨⟨startTs, value, startTs⟩,
         [AuditEvent.clockAnomaly u.lastCheckInAt startTs], u,
         some .timeAnomaly⟩) ∧
    (value = QR_CONSTANT → ¬ startTs - g.lastAction < 1200 →
      ¬ (value = g.lastScanVal ∧ startTs - g.lastScanTs < 2500) →
      u.lastCheckInAt ≠ 0 → ¬ startTs < u.lastCheckInAt →
      startTs - u.lastCheckInAt < CHECKIN_INTERVAL_MS →
      simulateScan g u value startTs cid cpid =
        ⟨⟨startTs, value, startTs⟩, [], u, some .tooSoon⟩) := by
  refine ⟨?_, ?_, ?_, ?_, ?_⟩
  · intro hv
    simp [simulateScan, hv]
  · intro hv hb
    subst hv
    simp [simulateScan, performCheckIn, hb, CheckInError.toScanError]
  · intro hv hb hd1 hd2
    subst hv
    have houter : ¬ (QR_CONSTANT ≠ QR_CONSTANT) := by simp
    simp only [simulateScan, if_neg houter]
    simp only [performCheckIn, if_neg hb]
    rw [if_pos (show QR_CONSTANT ≠ "" ∧ QR_CONSTANT = g.lastScanVal ∧
      startTs - g.lastScanTs < 2500 from ⟨by decide, hd1, hd2⟩)]
    rfl
  · intro hv hb hd hprior hanom
    subst hv
    have houter : ¬ (QR_CONSTANT ≠ QR_CONSTANT) := by simp
    simp only [simulateScan, if_neg houter]
    simp only [performCheckIn, if_neg hb]
    rw [if_neg (fun hcon => hd ⟨hcon.2.1, hcon.2.2⟩)]
    rw [if_pos ⟨hprior, hanom⟩]
    rfl
  · intro hv hb hd hprior hanom hsoon
    subst hv
    have houter : ¬ (QR_CONSTANT ≠ QR_CONSTANT) := by simp
    simp only [simulateScan, if_neg houter]
    simp only [performCheckIn, if_neg hb]
    rw [if_neg (fun hcon => hd ⟨hcon.2.1, hcon.2.2⟩)]
    rw [if_neg (fun hcon => hanom hcon.2)]
    rw [if_pos ⟨hprior, hsoon⟩]
    rfl

/-- Witness for C5 amended: the invalid-token and busy branches at
concrete inputs. -/
theorem C5_guard_order_witness :
    simulateScan ⟨5000, "", 0⟩ freshUser "wrong-token" 5100 1 101 =
      ⟨⟨5000, "", 0⟩, [], freshUser, some .invalidToken⟩ ∧
    simulateScan ⟨5000, "", 0⟩ freshUser QR_CONSTANT 5100 1 101 =
      ⟨⟨5000, "", 0⟩, [], freshUser, some .busy⟩ :=
  ⟨(C5_guard_order ⟨5000, "", 0⟩ freshUser "wrong-token" 5100 1 101).1
      (by decide),
   (C5_guard_order ⟨5000, "", 0⟩ freshUser QR_CONSTANT 5100 1 101).2.1
      rfl (by decide)⟩

/-- C8: a check-in attempt with the valid token that passes the rate-limit
and duplicate guards, by a user with a prior check-in (`lastCheckInAt ≠ 0`)
and an attempt timestamp strictly before it, fails with `TimeAnomaly`; the
`clock.anomaly` audit entry is the (only) audit emission of the failed
call, and the user's ledger record is returned unchanged. -/
theorem C8_time_anomaly (g : GlobalScanState) (u : User)
    (startTs cid cpid : Nat)
    (hbusy : ¬ startTs - g.lastAction < 1200)
    (hdup : ¬ (QR_CONSTANT = g.lastScanVal ∧ startTs - g.lastScanTs < 2500))
    (hprior : u.lastCheckInAt ≠ 0) (hanom : startTs < u.lastCheckInAt) :
    simulateScan g u QR_CONSTANT startTs cid cpid =
      ⟨⟨startTs, QR_CONSTANT, startTs⟩,
       [AuditEvent.clockAnomaly u.lastCheckInAt startTs], u,
       some .timeAnomaly⟩ := by
  have houter : ¬ (QR_CONSTANT ≠ QR_CONSTANT) := by simp
  simp only [simulateScan, if_neg houter]
  simp only [performCheckIn, if_neg hbusy]
  rw [if_neg (fun hcon => hdup ⟨hcon.2.1, hcon.2.2⟩)]
  rw [if_pos ⟨hprior, hanom⟩]
  rfl

/-- Witness for C8: user whose last check-in is at time 10000, attempt at
time 7000 after an idle window. -/
theorem C8_time_anomaly_witness :
    simulateScan ⟨2000, "", 0⟩
      ({ lastCheckInAt := 10000, totalCheckIns := 1, couponsAvailable := 0,
         couponHistory := [], checkIns := [{ id := 1, ts := 10000 }] } : User)
      QR_CONSTANT 7000 9 109 =
    ⟨⟨7000, QR_CONSTANT, 7000⟩, [AuditEvent.clockAnomaly 10000 7000],
     ({ lastCheckInAt := 10000, totalCheckIns := 1, couponsAvailable := 0,
        couponHistory := [], checkIns := [{ id := 1, ts := 10000 }] } : User),
     some .timeAnomaly⟩ :=
  C8_time_anomaly ⟨2000, "", 0⟩ _ 7000 9 109 (by decide) (by decide)
    (by decide) (by decide)

/-- C10 (implicit): an attempt that passes the rate-limit and duplicate
guards but fails with `TimeAnomaly` or `TooSoon` has already committed the
new ref values (`lastAction`, `lastScanVal`, `lastScanTs`), so any
subsequent attempt, by any user with any token, within 1200 ms of the
failed attempt fails with `Busy` (leaving everything unchanged) even
though no check-in completed. -/
theorem C10_failed_attempt_arms_rate_limit (g : GlobalScanState) (u : User)
    (sv : String) (startTs cid cpid : Nat)
    (hfail : (performCheckIn g u sv startTs cid cpid).err = some .timeAnomaly ∨
             (performCheckIn g u sv startTs cid cpid).err = some .tooSoon) :
    (performCheckIn g u sv startTs cid cpid).g = ⟨startTs, sv, startTs⟩ ∧
    (∀ (u2 : User) (sv2 : String) (ts2 cid2 cpid2 : Nat),
      ts2 - startTs < 1200 →
      performCheckIn (performCheckIn g u sv startTs cid cpid).g
          u2 sv2 ts2 cid2 cpid2 =
        ⟨(performCheckIn g u sv startTs cid cpid).g, [], u2, some .busy⟩) := by
  have hg : (performCheckIn g u sv startTs cid cpid).g = ⟨startTs, sv, startTs⟩ := by
    simp only [performCheckIn] at hfail ⊢
    split_ifs at hfail ⊢ with h1 h2 h3 h4 h5 <;>
      first
        | rfl
        | (rcases hfail with hfail | hfail <;> simp at hfail)
  refine ⟨hg, ?_⟩
  intro u2 sv2 ts2 cid2 cpid2 hts
  rw [hg]
  have hbusy : ts2 - (⟨startTs, sv, startTs⟩ : GlobalScanState).lastAction < 1200 := hts
  simp only [performCheckIn, if_pos hbusy]

/-- Witness for C10: a `TimeAnomaly` failure at time 7000 arms the rate
limit; a fresh user's attempt at 7500 then fails `Busy`. -/
theorem C10_failed_attempt_arms_rate_limit_witness :
    (performCheckIn ⟨2000, "", 0⟩
      ({ lastCheckInAt := 10000, totalCheckIns := 1, couponsAvailable := 0,
         couponHistory := [], checkIns := [{ id := 1, ts := 10000 }] } : User)
      QR_CONSTANT 7000 9 109).g = ⟨7000, QR_CONSTANT, 7000⟩ ∧
    performCheckIn (performCheckIn ⟨2000, "", 0⟩
      ({ lastCheckInAt := 10000, totalCheckIns := 1, couponsAvailable := 0,
         couponHistory := [], checkIns := [{ id := 1, ts := 10000 }] } : User)
      QR_CONSTANT 7000 9 109).g freshUser QR_CONSTANT 7500 10 110 =
      ⟨(performCheckIn ⟨2000, "", 0⟩
        ({ lastCheckInAt := 10000, totalCheckIns := 1, couponsAvailable := 0,
           couponHistory := [], checkIns := [{ id := 1, ts := 10000 }] } : User)
        QR_CONSTANT 7000 9 109).g, [], freshUser, some .busy⟩ := by
  have h := C10_failed_attempt_arms_rate_limit ⟨2000, "", 0⟩
    ({ lastCheckInAt := 10000, totalCheckIns := 1, couponsAvailable := 0,
       couponHistory := [], checkIns := [{ id := 1, ts := 10000 }] } : User)
    QR_CONSTANT 7000 9 109 (Or.inl (by decide))
  exact ⟨h.1, h.2 freshUser QR_CONSTANT 7500 10 110 (by decide)⟩

theorem findIndex_first_le {l : List Coupon} :
    ∀ {i : Nat}, l.Pairwise (fun a b => a.createdAt ≤ b.createdAt) →
      findIndex (fun c => c.redeemedAt.isNone) l = some i →
      ∀ c ∈ l, c.redeemedAt.isNone = true →
        (l.getD i ⟨0, 0, none⟩).createdAt ≤ c.createdAt := by
  induction l with
  | nil => intro i _ h; cases h
  | cons a t ih =>
    intro i hs hfi c hc hcn
    have hs' := List.pairwise_cons.mp hs
    by_cases hpa : a.redeemedAt.isNone
    · simp [findIndex, hpa] at hfi
      subst hfi
      rcases List.mem_cons.mp hc with rfl | hct
      · simp
      · simpa using hs'.1 c hct
    · simp [findIndex, hpa] at hfi
      obtain ⟨j, hj, rfl⟩ := hfi
      rcases List.mem_cons.mp hc with rfl | hct
      · exact absurd hcn (by simpa using hpa)
      · simpa using ih hs'.2 hj c hct hcn

/-- C4 counterexample: for a user with one (already redeemed) coupon and
`couponsAvailable = 0`, the local `redeemCoupon` does not fail with
`NoCoupon`: it returns the user record unchanged and emits no audit —
the function has no failure outcome at all (callers are expected to
disable the button instead). -/
theorem C4_counterexample :
    redeemCoupon
      ({ lastCheckInAt := 5000, totalCheckIns := 5, couponsAvailable := 0,
         couponHistory := [{ id := 100, createdAt := 5000, redeemedAt := some 6000 }],
         checkIns := [{ id := 1, ts := 1000 }, { id := 2, ts := 2000 },
           { id := 3, ts := 3000 }, { id := 4, ts := 4000 },
           { id := 5, ts := 5000 }] } : User) 7000 =
    (({ lastCheckInAt := 5000, totalCheckIns := 5, couponsAvailable := 0,
        couponHistory := [{ id := 100, createdAt := 5000, redeemedAt := some 6000 }],
        checkIns := [{ id := 1, ts := 1000 }, { id := 2, ts := 2000 },
          { id := 3, ts := 3000 }, { id := 4, ts := 4000 },
          { id := 5, ts := 5000 }] } : User),
     []) := by decide

/-- C4 amended: when `couponsAvailable` is zero or no coupon in
`couponHistory` has an absent `redeemedAt`, the local `redeemCoupon`
silently leaves the user unchanged and emits nothing (it does not fail
with `NoCoupon`; the remote `fbRedeemCoupon` is the variant that fails
with `NO_COUPON` in those cases). Otherwise `redeemCoupon` sets the
`redeemedAt` of the first unredeemed coupon in history order — the
earliest-created unredeemed one whenever the history is sorted by
creation time — to the current time, decrements `couponsAvailable` by
one, emits a `coupon.redeem` audit entry, and changes nothing else. -/
theorem C4_redeem_behaviour (u : User) (t : Nat) :
    (u.couponsAvailable = 0 → redeemCoupon u t = (u, [])) ∧
    (findIndex (fun c => c.redeemedAt.isNone) u.couponHistory = none →
      redeemCoupon u t = (u, [])) ∧
    (∀ i, u.couponsAvailable ≠ 0 →
      findIndex (fun c => c.redeemedAt.isNone) u.couponHistory = some i →
      redeemCoupon u t =
        ({ u with couponsAvailable := u.couponsAvailable - 1,
                  couponHistory := u.couponHistory.set i
                    { u.couponHistory.getD i ⟨0, 0, none⟩ with
                      redeemedAt := some t } },
         [AuditEvent.couponRedeem (u.couponHistory.getD i ⟨0, 0, none⟩).id])) ∧
    (∀ i, u.couponHistory.Pairwise (fun a b => a.createdAt ≤ b.createdAt) →
      findIndex (fun c => c.redeemedAt.isNone) u.couponHistory = some i →
      ∀ c ∈ u.couponHistory, c.redeemedAt.isNone = true →
        (u.couponHistory.getD i ⟨0, 0, none⟩).createdAt ≤ c.createdAt) ∧
    (∀ (coupons : List Coupon) (avail t2 : Nat),
      findIndex (fun c => c.redeemedAt.isNone) coupons = none →
      fbRedeemCoupon coupons avail t2 = .error "NO_COUPON") ∧
    (∀ (coupons : List Coupon) (t2 : Nat),
      fbRedeemCoupon coupons 0 t2 = .error "NO_COUPON") := by
  refine ⟨?_, ?_, ?_, ?_, ?_, ?_⟩
  · intro h
    simp [redeemCoupon, h]
  · intro h
    unfold redeemCoupon
    rw [h]
    simp
  · intro i hav hfi
    unfold redeemCoupon
    rw [if_neg hav, hfi]
  · intro i hs hfi c hc hcn
    exact findIndex_first_le hs hfi c hc hcn
  · intro coupons avail t2 h
    unfold fbRedeemCoupon
    rw [h]
  · intro coupons t2
    unfold fbRedeemCoupon
    cases h : findIndex (fun c => c.redeemedAt.isNone) coupons with
    | none => rfl
    | some i => simp

/-- Witness for C4 amended: silent no-op at zero availability, a concrete
successful redemption, and the remote failure. -/
theorem C4_redeem_behaviour_witness :
    redeemCoupon ({ lastCheckInAt := 0, totalCheckIns := 0,
                    couponsAvailable := 0, couponHistory := [],
                    checkIns := [] } : User) 7 =
      (({ lastCheckInAt := 0, totalCheckIns := 0, couponsAvailable := 0,
          couponHistory := [], checkIns := [] } : User), []) ∧
    redeemCoupon ({ lastCheckInAt := 5000, totalCheckIns := 5,
                    couponsAvailable := 1,
                    couponHistory := [{ id := 100, createdAt := 5000,
                                        redeemedAt := none }],
                    checkIns := [] } : User) 7000 =
      (({ lastCheckInAt := 5000, totalCheckIns := 5, couponsAvailable := 0,
          couponHistory := [{ id := 100, createdAt := 5000,
                              redeemedAt := some 7000 }],
          checkIns := [] } : User), [AuditEvent.couponRedeem 100]) ∧
    fbRedeemCoupon [] 3 7 = .error "NO_COUPON" := by
  refine ⟨(C4_redeem_behaviour _ 7).1 rfl, ?_, ?_⟩
  · have h := (C4_redeem_behaviour ({ lastCheckInAt := 5000, totalCheckIns := 5, couponsAvailable := 1, couponHistory := [{ id := 100, createdAt := 5000, redeemedAt := none }], checkIns := [] } : User) 7000).2.2.1 0 (by decide) (by decide)
    simpa using h
  · exact (C4_redeem_behaviour freshUser 0).2.2.2.2.1 [] 3 7 (by decide)

theorem range_map_getD_eq_take {α : Type _} {l : List α} {n : Nat}
    (h : n ≤ l.length) (d : Nat → α) :
    (List.range n).map (fun i => l.getD i (d i)) = l.take n := by
  apply List.ext_getElem?
  intro i
  by_cases hi : i < n
  · rw [List.getElem?_map, List.getElem?_range hi]
    have hil : i < l.length := lt_of_lt_of_le hi h
    rw [List.getElem?_take]
    rw [if_pos hi, List.getElem?_eq_getElem hil]
    simp [List.getD_eq_getElem?_getD, List.getElem?_eq_getElem hil]
  · rw [List.getElem?_map]
    rw [List.getElem?_eq_none (by simpa using not_lt.mp hi)]
    rw [List.getElem?_take, if_neg hi]
    rfl

/-- C2: for every `deleteCheckIn` of an existing check-in on a
creation-time-sorted coupon history, the rebuilt history keeps each of the
first `targetCouponCount = floor(newTotal / 5)` coupons unchanged
(redemption state included); in particular, for any coupon index `k`
(1-based) with `5 * k` still at most the new total, coupon `k` is exactly
what it was before the deletion. -/
theorem C2_delete_keeps_coupon_front (u : User) (cid : Nat)
    (padId : Nat → Nat) (padTs : Nat)
    (hsort : u.couponHistory.Pairwise (fun a b => a.createdAt ≤ b.createdAt))
    (hfound : (findIndex (fun c => c.id = cid) u.checkIns).isSome) :
    (∀ k, k < targetAfterDelete u cid → k < u.couponHistory.length →
      ((deleteCheckIn u cid padId padTs).1.couponHistory)[k]? =
        u.couponHistory[k]?) ∧
    (∀ k, 1 ≤ k →
      COUPON_MODULO * k ≤ (u.checkIns.filter (fun c => c.id ≠ cid)).length →
      k - 1 < u.couponHistory.length →
      ((deleteCheckIn u cid padId padTs).1.couponHistory)[k - 1]? =
        u.couponHistory[k - 1]?) := by
  have hmain : ∀ k, k < targetAfterDelete u cid → k < u.couponHistory.length →
      ((deleteCheckIn u cid padId padTs).1.couponHistory)[k]? =
        u.couponHistory[k]? := by
    intro k hk hklen
    cases hfi : findIndex (fun c => c.id = cid) u.checkIns with
    | none => rw [hfi] at hfound; cases hfound
    | some i =>
      unfold deleteCheckIn
      rw [hfi]
      simp only []
      rw [List.Sorted.insertionSort_eq hsort]
      rw [List.getElem?_map, List.getElem?_range hk]
      simp [List.getD_eq_getElem?_getD, List.getElem?_eq_getElem hklen]
  refine ⟨hmain, ?_⟩
  intro k hk1 hk5 hklen
  refine hmain (k - 1) ?_ hklen
  simp only [targetAfterDelete, COUPON_MODULO] at hk5 ⊢
  omega

/-- Witness for C2 (Scenario E): a user with 7 check-ins and one redeemed
coupon has the 5th check-in deleted; the coupon (index 0) keeps its
redemption state. -/
theorem C2_delete_keeps_coupon_front_witness :
    ((deleteCheckIn
      ({ lastCheckInAt := 7000, totalCheckIns := 7, couponsAvailable := 0,
         couponHistory := [{ id := 100, createdAt := 5000,
                             redeemedAt := some 6000 }],
         checkIns := [{ id := 1, ts := 1000 }, { id := 2, ts := 2000 },
           { id := 3, ts := 3000 }, { id := 4, ts := 4000 },
           { id := 5, ts := 5000 }, { id := 6, ts := 6500 },
           { id := 7, ts := 7000 }] } : User)
      5 (fun i => 900 + i) 7700).1.couponHistory)[0]? =
      some { id := 100, createdAt := 5000, redeemedAt := some 6000 } := by
  have h := (C2_delete_keeps_coupon_front
    ({ lastCheckInAt := 7000, totalCheckIns := 7, couponsAvailable := 0, couponHistory := [{ id := 100, createdAt := 5000, redeemedAt := some 6000 }], checkIns := [{ id := 1, ts := 1000 }, { id := 2, ts := 2000 }, { id := 3, ts := 3000 }, { id := 4, ts := 4000 }, { id := 5, ts := 5000 }, { id := 6, ts := 6500 }, { id := 7, ts := 7000 }] } : User)
    5 (fun i => 900 + i) 7700 (by decide) (by decide)).1 0 (by decide)
    (by decide)
  simpa using h

/-- C3: for every `deleteCheckIn` of an existing check-in on a
creation-time-sorted coupon history whose length is at least
`targetCouponCount` (as invariant I2 guarantees), the coupons beyond
position `targetCouponCount` are dropped, and the emitted audit trail is
exactly one `coupon.invalidate` entry listing the ids of the dropped
redeemed coupons when at least one dropped coupon had been redeemed —
and no `coupon.invalidate` entry at all otherwise — followed by the
`checkin.delete` entry. -/
theorem C3_delete_drop_and_invalidate (u : User) (cid : Nat)
    (padId : Nat → Nat) (padTs : Nat)
    (hsort : u.couponHistory.Pairwise (fun a b => a.createdAt ≤ b.createdAt))
    (hfound : (findIndex (fun c => c.id = cid) u.checkIns).isSome)
    (hlen : targetAfterDelete u cid ≤ u.couponHistory.length) :
    (deleteCheckIn u cid padId padTs).1.couponHistory =
      u.couponHistory.take (targetAfterDelete u cid) ∧
    (deleteCheckIn u cid padId padTs).2 =
      (if droppedRedeemed u cid = [] then []
       else [AuditEvent.couponInvalidate
              ((droppedRedeemed u cid).map (fun c => c.id))]) ++
      [AuditEvent.checkinDelete cid] := by
  cases hfi : findIndex (fun c => c.id = cid) u.checkIns with
  | none => rw [hfi] at hfound; cases hfound
  | some i =>
    unfold deleteCheckIn
    rw [hfi]
    simp only []
    rw [List.Sorted.insertionSort_eq hsort]
    have hremoved :
        (if targetAfterDelete u cid < u.couponHistory.length then
          u.couponHistory.drop (targetAfterDelete u cid)
         else []) =
        u.couponHistory.drop (targetAfterDelete u cid) := by
      by_cases hc : targetAfterDelete u cid < u.couponHistory.length
      · rw [if_pos hc]
      · rw [if_neg hc]
        have : targetAfterDelete u cid = u.couponHistory.length := by omega
        rw [this, List.drop_length]
    rw [hremoved]
    constructor
    · exact range_map_getD_eq_take hlen (fun i => ⟨padId i, padTs, none⟩)
    · by_cases hde : droppedRedeemed u cid = []
      · have hlen0 : (droppedRedeemed u cid).length = 0 :=
          List.length_eq_zero.mpr hde
        rw [if_neg (fun hcon => hcon hlen0), if_pos hde]
      · rw [if_pos (by
          intro hcon
          exact hde (List.length_eq_zero.mp hcon)), if_neg hde]

/-- Witness for C3: a user with 5 check-ins and one redeemed coupon has
check-in 5 deleted; the coupon history becomes empty and exactly one
`coupon.invalidate` entry naming the dropped redeemed coupon is emitted,
followed by `checkin.delete`. -/
theorem C3_delete_drop_and_invalidate_witness :
    (deleteCheckIn
      ({ lastCheckInAt := 5000, totalCheckIns := 5, couponsAvailable := 0,
         couponHistory := [{ id := 100, createdAt := 5000,
                             redeemedAt := some 6000 }],
         checkIns := [{ id := 1, ts := 1000 }, { id := 2, ts := 2000 },
           { id := 3, ts := 3000 }, { id := 4, ts := 4000 },
           { id := 5, ts := 5000 }] } : User)
      5 (fun i => 900 + i) 7700).1.couponHistory = [] ∧
    (deleteCheckIn
      ({ lastCheckInAt := 5000, totalCheckIns := 5, couponsAvailable := 0,
         couponHistory := [{ id := 100, createdAt := 5000,
                             redeemedAt := some 6000 }],
         checkIns := [{ id := 1, ts := 1000 }, { id := 2, ts := 2000 },
           { id := 3, ts := 3000 }, { id := 4, ts := 4000 },
           { id := 5, ts := 5000 }] } : User)
      5 (fun i => 900 + i) 7700).2 =
      [AuditEvent.couponInvalidate [100], AuditEvent.checkinDelete 5] := by
  have h := C3_delete_drop_and_invalidate
    ({ lastCheckInAt := 5000, totalCheckIns := 5, couponsAvailable := 0, couponHistory := [{ id := 100, createdAt := 5000, redeemedAt := some 6000 }], checkIns := [{ id := 1, ts := 1000 }, { id := 2, ts := 2000 }, { id := 3, ts := 3000 }, { id := 4, ts := 4000 }, { id := 5, ts := 5000 }] } : User)
    5 (fun i => 900 + i) 7700 (by decide) (by decide) (by decide)
  constructor
  · rw [h.1]
    decide
  · rw [h.2]
    decide

/-- C6: for every fresh user, after `n` successful check-ins (no deletions)
interleaved with `r` successful redemptions: `totalCheckIns = n`,
`couponHistory` has `floor(n/5)` coupons, `couponsAvailable =
floor(n/5) - r`, and `floor(n/5) - r` coupons are unredeemed; moreover a
successful check-in appends a new unredeemed coupon exactly when the
resulting total is a multiple of 5 (so after 4 check-ins the history is
empty with 0 available, and the 5th check-in makes it 1 unredeemed
coupon). -/
theorem C6_coupon_cadence :
    (∀ (g : GlobalScanState) (u : User) (sv : String) (ts cid cpid : Nat),
      (performCheckIn g u sv ts cid cpid).err = none →
      (performCheckIn g u sv ts cid cpid).user.couponHistory =
        u.couponHistory ++
          (if (u.totalCheckIns + 1) % COUPON_MODULO = 0 then
            [({ id := cpid, createdAt := ts, redeemedAt := none } : Coupon)]
           else [])) ∧
    (∀ (n r : Nat) (u : User), ReachableCR n r u →
      u.totalCheckIns = n ∧
      u.couponHistory.length = n / COUPON_MODULO ∧
      r ≤ n / COUPON_MODULO ∧
      u.couponsAvailable = n / COUPON_MODULO - r ∧
      (u.couponHistory.filter (fun c => c.redeemedAt.isNone)).length =
        n / COUPON_MODULO - r) := by
  constructor
  · intro g u sv ts cid cpid h
    obtain ⟨-, huser⟩ := performCheckIn_ok g u sv ts cid cpid h
    rw [huser]
    split_ifs with hmod
    · simp
    · simp
  · intro n r u h
    induction h with
    | fresh => exact ⟨rfl, by decide, by decide, by decide, by decide⟩
    | checkIn n r u g sv ts cid cpid hu hok ih =>
      obtain ⟨ht, hl, hr, ha, hc⟩ := ih
      obtain ⟨-, huser⟩ := performCheckIn_ok g u sv ts cid cpid hok
      rw [huser]
      simp only [COUPON_MODULO] at hl hr ha hc ⊢
      by_cases hmod : (n + 1) % 5 = 0
      · rw [if_pos (by rw [ht]; exact hmod)]
        refine ⟨by simp [ht], ?_, ?_, ?_, ?_⟩
        · show (u.couponHistory ++ _).length = (n + 1) / 5
          simp only [List.length_append, List.length_cons, List.length_nil, hl]
          omega
        · omega
        · show u.couponsAvailable + 1 = (n + 1) / 5 - r
          rw [ha]
          omega
        · show (List.filter _ (u.couponHistory ++ _)).length = (n + 1) / 5 - r
          rw [List.filter_append]
          simp only [List.length_append, hc]
          simp
          omega
      · rw [if_neg (by rw [ht]; exact hmod)]
        refine ⟨by simp [ht], ?_, ?_, ?_, ?_⟩
        · show u.couponHistory.length = (n + 1) / 5
          rw [hl]
          omega
        · omega
        · show u.couponsAvailable = (n + 1) / 5 - r
          rw [ha]
          omega
        · show (List.filter _ u.couponHistory).length = (n + 1) / 5 - r
          rw [hc]
          omega
    | redeem n r u t hu hrr ih =>
      obtain ⟨ht, hl, hr, ha, hc⟩ := ih
      simp only [COUPON_MODULO] at hl hr ha hc ⊢
      unfold redeemCoupon at hrr ⊢
      split_ifs at hrr ⊢ with hav
      · simp at hrr
      · cases hfi : findIndex (fun c => c.redeemedAt.isNone) u.couponHistory with
        | none =>
          rw [hfi] at hrr
          simp at hrr
        | some i =>
          have hdec := filter_length_set
            (p := fun c => c.redeemedAt.isNone)
            (x := ({ id := (u.couponHistory.getD i ⟨0, 0, none⟩).id,
                     createdAt := (u.couponHistory.getD i ⟨0, 0, none⟩).createdAt,
                     redeemedAt := some t } : Coupon))
            (by simp) hfi
          refine ⟨ht, ?_, ?_, ?_, ?_⟩
          · show (u.couponHistory.set i _).length = n / 5
            simp [List.length_set, hl]
          · omega
          · show u.couponsAvailable - 1 = n / 5 - (r + 1)
            omega
          · show (List.filter _ (u.couponHistory.set i _)).length = n / 5 - (r + 1)
            omega

/-- Witness for C6: the concrete run of five well-spaced valid check-ins
from a fresh user ends with 5 total check-ins, one coupon, one available,
and that coupon unredeemed. -/
theorem C6_coupon_cadence_witness :
    cadenceRun.2.totalCheckIns = 5 ∧
    cadenceRun.2.couponHistory.length = 1 ∧
    cadenceRun.2.couponsAvailable = 1 ∧
    (cadenceRun.2.couponHistory.filter
      (fun c => c.redeemedAt.isNone)).length = 1 := by
  have h5 : ReachableCR 5 0 cadenceRun.2 :=
    ReachableCR.checkIn 4 0 _ _ QR_CONSTANT 2246402000 5 105
      (ReachableCR.checkIn 3 0 _ _ QR_CONSTANT 1684802000 4 104
        (ReachableCR.checkIn 2 0 _ _ QR_CONSTANT 1123202000 3 103
          (ReachableCR.checkIn 1 0 _ _ QR_CONSTANT 561602000 2 102
            (ReachableCR.checkIn 0 0 _ _ QR_CONSTANT 2000 1 101
              ReachableCR.fresh (by decide))
            (by decide))
          (by decide))
        (by decide))
      (by decide)
  have h := C6_coupon_cadence.2 5 0 cadenceRun.2 h5
  refine ⟨h.1, ?_, ?_, ?_⟩
  · rw [h.2.1]
    decide
  · rw [h.2.2.2.1]
    decide
  · rw [h.2.2.2.2]
    decide

end BLAPL
